import Mathlib

/-!
Verification of the SizeKit detection-and-measurement pipeline.

Shallow embedding conventions:
* JavaScript IEEE-754 number arithmetic is modelled by exact rational
  arithmetic (`ℚ`); every numeric literal of the source is carried over as
  the corresponding rational.
* `Math.round x` is modelled by `⌊x + 1/2⌋` (`jsRound`), which matches the
  JavaScript semantics of rounding half towards positive infinity.
* Pixel buffers (`ImageData`) are modelled as a width, a height, and a total
  function from linear byte index to sample value, mirroring the flat
  `data` array indexed as `(y * width + x) * 4`.
* `Math.sqrt` (used only inside geometric distance computations whose exact
  value never matters to the claims) is irrational, hence taken as an
  explicit function parameter `sq : ℚ → ℚ` of the definitions that use it.
* `getSkinTone` samples a trigonometric ring of pixels (`Math.cos` and
  `Math.sin`); its resulting brightness estimate is taken as an explicit
  parameter `skinB : ℚ` of the nail-boundary detector, exactly as the
  specification speaks of a given skin-brightness estimate.

The sources embedded here are detection.js (first variant: point size table,
scan-based nail boundary detection), src/measurements.js together with
src/config.js (band size table, scale validation), modules/cardDetector.js
(edge/contour based detector with history smoothing), and the OpenCV-based
CardDetector (lock / unlock state machine).
-/

namespace SizeKit

/-- JavaScript Math.round: round half towards positive infinity. -/
def jsRound (q : ℚ) : ℤ := ⌊q + 1/2⌋

/-- The JavaScript Math.round(x * 10) / 10 pattern used to keep one decimal. -/
def round10 (q : ℚ) : ℚ := (jsRound (q * 10) : ℚ) / 10

/-- One entry of the Tomica point size table of detection.js: a size number
and the millimeter value it denotes. -/
structure SizeEntry where
  size : ℤ
  mm : ℤ
deriving DecidableEq, Repr

/-- Tomica size chart of detection.js: Size 0 = 17mm down to Size 9 = 8mm. -/
def NAIL_SIZE_TABLE : List SizeEntry :=
  [⟨0, 17⟩, ⟨1, 16⟩, ⟨2, 15⟩, ⟨3, 14⟩, ⟨4, 13⟩,
   ⟨5, 12⟩, ⟨6, 11⟩, ⟨7, 10⟩, ⟨8, 9⟩, ⟨9, 8⟩]

/-- Curvature multiplier of detection.js (1.06): converts the measured chord
length to the curved length. -/
def CURVATURE_MULTIPLIER : ℚ := 106/100

/-- JavaScript Array.prototype.find with predicate `s.mm === r`: the first
table entry whose millimeter value equals `r`. -/
def findByMm : List SizeEntry → ℤ → Option SizeEntry
  | [], _ => none
  | e :: rest, r => if e.mm = r then some e else findByMm rest r

/-- JavaScript Array.prototype.find with predicate `s.size === n`: the first
table entry whose size number equals `n`. -/
def findBySize : List SizeEntry → ℤ → Option SizeEntry
  | [], _ => none
  | e :: rest, n => if e.size = n then some e else findBySize rest n

/-- mmToSizeNumber of detection.js: round to the nearest millimeter, look for
an exact table match, then handle the edge cases, finally the arithmetic
fallback clamped to the size range. -/
def mmToSizeNumber (mm : ℚ) : ℤ :=
  let roundedMm := jsRound mm
  match findByMm NAIL_SIZE_TABLE roundedMm with
  | some s => s.size
  | none =>
    if 17 ≤ roundedMm then 0
    else if roundedMm ≤ 8 then 9
    else max 0 (min 9 (17 - roundedMm))

/-- sizeNumberToMm of detection.js: table lookup by size number with the fixed
default of 13 mm (size 4, the middle size) when the size has no entry. -/
def sizeNumberToMm (sizeNumber : ℤ) : ℤ :=
  match findBySize NAIL_SIZE_TABLE sizeNumber with
  | some s => s.mm
  | none => 13

/-- Scale computation of detectCreditCard in detection.js:
pixelsPerMm = bestRect.width / 85.6. -/
def pixelsPerMmOfWidth (w : ℚ) : ℚ := w / (856/10)

/-- A nail entry of the hand-detection result as consumed by measureNails:
the finger label and the detected boundary width in pixels
(`nail.width.pixels`). -/
structure Nail where
  finger : String
  widthPixels : ℚ
deriving DecidableEq, Repr

/-- One output record of measureNails of detection.js. -/
structure NailMeasurement where
  finger : String
  chordMm : ℚ
  curvedMm : ℚ
  widthMm : ℚ
  sizeNumber : ℤ
  confidence : ℚ
deriving DecidableEq, Repr

/-- The per-nail body of the measureNails map of detection.js. -/
def measureNail (pixelsPerMm : ℚ) (handConfidence : ℚ) (nail : Nail) :
    NailMeasurement :=
  let chordMm := nail.widthPixels / pixelsPerMm
  let curvedMm := chordMm * CURVATURE_MULTIPLIER
  let sizeNumber := mmToSizeNumber curvedMm
  { finger := nail.finger
    chordMm := round10 chordMm
    curvedMm := round10 curvedMm
    widthMm := round10 curvedMm
    sizeNumber := sizeNumber
    confidence := if 0 < nail.widthPixels then handConfidence else 0 }

/-- measureNails of detection.js: map every nail of the hand data through the
pixel-to-millimeter conversion, curvature correction and size lookup. -/
def measureNails (nails : List Nail) (pixelsPerMm : ℚ)
    (handConfidence : ℚ) : List NailMeasurement :=
  nails.map (measureNail pixelsPerMm handConfidence)

/-- One entry of the band size table shared by src/config.js
(Config.nailSizeTable) and the band variant of detection.js: a size number
and the half-open millimeter band it covers. -/
structure BandEntry where
  size : ℤ
  minMm : ℚ
  maxMm : ℚ
deriving DecidableEq, Repr

/-- The band size table of src/config.js: size 0 covers 16 - 18 mm and each
further size moves the band one millimeter down, ending at size 11 covering
5 - 6 mm. -/
def nailSizeTableBands : List BandEntry :=
  [⟨0, 16, 18⟩, ⟨1, 15, 16⟩, ⟨2, 14, 15⟩, ⟨3, 13, 14⟩,
   ⟨4, 12, 13⟩, ⟨5, 11, 12⟩, ⟨6, 10, 11⟩, ⟨7, 9, 10⟩,
   ⟨8, 8, 9⟩, ⟨9, 7, 8⟩, ⟨10, 6, 7⟩, ⟨11, 5, 6⟩]

/-- The for-of loop of mmToSizeNumber in src/measurements.js: the first band
with minMm ≤ mm < maxMm. -/
def findBand : List BandEntry → ℚ → Option BandEntry
  | [], _ => none
  | e :: rest, mm =>
    if e.minMm ≤ mm ∧ mm < e.maxMm then some e else findBand rest mm

/-- JavaScript Array.prototype.find with predicate `s.size === n` over the
band table (Config.getSizeInfo of src/config.js). -/
def findBandBySize : List BandEntry → ℤ → Option BandEntry
  | [], _ => none
  | e :: rest, n => if e.size = n then some e else findBandBySize rest n

/-- mmToSizeNumber of src/measurements.js: the size of the first matching
band when one exists, else the two edge cases, else the rounded arithmetic
fallback clamped to 0 - 11. -/
def mmToSizeNumberBands (mm : ℚ) : ℤ :=
  ((findBand nailSizeTableBands mm).map BandEntry.size).getD
    (if 18 ≤ mm then 0
     else if mm < 5 then 11
     else max 0 (min 11 (jsRound (18 - mm))))

/-- The millimeter range record returned by sizeNumberToMm of
src/measurements.js. The field names follow the JS object keys min, max,
average. -/
structure MmBand where
  min : ℚ
  max : ℚ
  average : ℚ
deriving DecidableEq, Repr

/-- sizeNumberToMm of src/measurements.js: band lookup by size number with the
fixed default band min 7, max 18, average 12 when the size has no entry. -/
def sizeNumberToMmBand (sizeNumber : ℤ) : MmBand :=
  match findBandBySize nailSizeTableBands sizeNumber with
  | some s => ⟨s.minMm, s.maxMm, (s.minMm + s.maxMm) / 2⟩
  | none => ⟨7, 18, 12⟩

/-- Scale validation of src/config.js (Config.isValidScale): the computed
pixels-per-millimeter value must lie between minPixelsPerMm = 2 and
maxPixelsPerMm = 50. -/
def isValidScale (pixelsPerMm : ℚ) : Prop :=
  2 ≤ pixelsPerMm ∧ pixelsPerMm ≤ 50

instance (p : ℚ) : Decidable (isValidScale p) := by
  unfold isValidScale; infer_instance

/-- The JavaScript `handData.confidence || 0.8` fallback of
src/measurements.js: an absent or zero (falsy) confidence becomes 0.8. -/
def jsConfidenceOr (c : Option ℚ) (dflt : ℚ) : ℚ :=
  match c with
  | some v => if v = 0 then dflt else v
  | none => dflt

/-- The hand-detection result consumed by calculateNailSizes of
src/measurements.js. -/
structure HandData where
  nails : List Nail
  confidence : Option ℚ
deriving DecidableEq, Repr

/-- The reference-detection result consumed by calculateNailSizes. -/
structure RefData where
  pixelsPerMm : ℚ
deriving DecidableEq, Repr

/-- One output record of calculateNailSizes of src/measurements.js. -/
structure SizeMeasurement where
  finger : String
  mm : ℚ
  size : ℤ
  confidence : ℚ
deriving DecidableEq, Repr

/-- The error taxonomy of calculateNailSizes: the two thrown errors. -/
inductive MeasError where
  | invalidInput
  | invalidScale
deriving DecidableEq, Repr

/-- calculateNailSizes of src/measurements.js: reject missing input data,
reject an implausible scale, otherwise convert every nail. The
console-warning for out-of-range single measurements has no effect on the
result and is omitted; absent hand or reference data is modelled by `none`
(the JS null checks on handData, handData.nails and referenceData). -/
def calculateNailSizes (handData : Option HandData)
    (referenceData : Option RefData) :
    Except MeasError (List SizeMeasurement) :=
  match handData, referenceData with
  | some hd, some rd =>
    if isValidScale rd.pixelsPerMm then
      .ok (hd.nails.map (fun nail =>
        let widthMm := nail.widthPixels / rd.pixelsPerMm
        { finger := nail.finger
          mm := round10 widthMm
          size := mmToSizeNumberBands widthMm
          confidence := jsConfidenceOr hd.confidence (8/10) }))
    else .error .invalidScale
  | _, _ => .error .invalidInput

/-- A pixel buffer: the flat ImageData array of the canvas is modelled by a
total function from linear byte index to sample value. -/
structure ImageQ where
  width : ℤ
  height : ℤ
  data : ℤ → ℚ

/-- Grayscale brightness used throughout detection.js:
(data[idx] + data[idx+1] + data[idx+2]) / 3 at idx = (y * width + x) * 4. -/
def pixelBrightness (img : ImageQ) (x y : ℤ) : ℚ :=
  let idx := (y * img.width + x) * 4
  (img.data idx + img.data (idx + 1) + img.data (idx + 2)) / 3

/-- n consecutive integers starting at a with the given step. -/
def intSeq (a step : ℤ) : ℕ → List ℤ
  | 0 => []
  | n + 1 => a :: intSeq (a + step) step n

/-- X coordinates visited by the left scan loop of detectActualNailBoundary:
for (x = tipX; x >= Math.max(0, tipX - 60); x--). -/
def leftScanXs (tipX : ℤ) : List ℤ :=
  let lo := max 0 (tipX - 60)
  if tipX < lo then [] else intSeq tipX (-1) ((tipX - lo).toNat + 1)

/-- X coordinates visited by the right scan loop of detectActualNailBoundary:
for (x = tipX; x <= Math.min(imgWidth - 1, tipX + 60); x++). -/
def rightScanXs (img : ImageQ) (tipX : ℤ) : List ℤ :=
  let hi := min (img.width - 1) (tipX + 60)
  if hi < tipX then [] else intSeq tipX 1 ((hi - tipX).toNat + 1)

/-- The edge scan loop body of detectActualNailBoundary: walk the listed x
coordinates, stop at the first pixel whose brightness falls below the
threshold and answer that coordinate adjusted one pixel back (+1 when
scanning left, -1 when scanning right); the edge variable keeps its initial
value (the anchor tipX) when no pixel falls below the threshold. -/
def scanBreak (img : ImageQ) (thr : ℚ) (scanY adjust fallback : ℤ) :
    List ℤ → ℤ
  | [] => fallback
  | x :: rest =>
    if pixelBrightness img x scanY < thr then x + adjust
    else scanBreak img thr scanY adjust fallback rest

/-- One scan row of detectActualNailBoundary: width = rightEdge - leftEdge + 1. -/
def rowWidthAt (img : ImageQ) (thr : ℚ) (tipX scanY : ℤ) : ℤ :=
  let leftEdge := scanBreak img thr scanY 1 tipX (leftScanXs tipX)
  let rightEdge := scanBreak img thr scanY (-1) tipX (rightScanXs img tipX)
  rightEdge - leftEdge + 1

/-- The vertical scan window of detectActualNailBoundary: scanLines = 7 rows
either side of the fingertip, scanStep = 2 pixels apart. -/
def scanOffsets : List ℤ :=
  [-14, -12, -10, -8, -6, -4, -2, 0, 2, 4, 6, 8, 10, 12, 14]

/-- The 5x5 sampling offsets around the fingertip (sampleRadius = 2). -/
def sampleOffsets : List ℤ := [-2, -1, 0, 1, 2]

/-- The brightest pixel in the 5x5 area around the fingertip, over in-bounds
samples only, starting from 0 (maxBrightness initialisation). -/
def tipBrightnessAt (img : ImageQ) (tipX tipY : ℤ) : ℚ :=
  sampleOffsets.foldl
    (fun maxB dy =>
      sampleOffsets.foldl
        (fun maxB2 dx =>
          let sampleX := tipX + dx
          let sampleY := tipY + dy
          if 0 ≤ sampleX ∧ sampleX < img.width ∧
              0 ≤ sampleY ∧ sampleY < img.height then
            let b := pixelBrightness img sampleX sampleY
            if maxB2 < b then b else maxB2
          else maxB2)
        maxB)
    0

/-- The edge threshold of detectActualNailBoundary: the greater of 75% of the
nail-area brightness and 102% of the skin brightness. -/
def edgeThresholdOf (tipBrightness skinBrightness : ℚ) : ℚ :=
  max (tipBrightness * (75/100)) (skinBrightness * (102/100))

/-- One step of the scan-line fold of detectActualNailBoundary: skip rows
outside the image, otherwise keep the new row width exactly when it beats
the running maximum and exceeds the 3 px plausibility bound. -/
def nailRowStep (img : ImageQ) (thr : ℚ) (tipX tipY : ℤ)
    (maxWidth offset : ℤ) : ℤ :=
  let scanY := tipY + offset
  if scanY < 0 ∨ img.height ≤ scanY then maxWidth
  else
    let width := rowWidthAt img thr tipX scanY
    if maxWidth < width ∧ 3 < width then width else maxWidth

/-- detectActualNailBoundary of detection.js (first variant): round the
fingertip coordinates, estimate the nail brightness from the 5x5 area,
derive the edge threshold, then fold the scan rows. The trailing
`if maxWidth === 0 return 0` of the source is the identity and is folded
into returning the accumulator. The skin brightness, estimated by the
trigonometric ring sampling of getSkinTone, is a parameter. -/
def detectActualNailBoundary (img : ImageQ) (fingertipX fingertipY : ℚ)
    (skinBrightness : ℚ) : ℤ :=
  let tipY := jsRound fingertipY
  let tipX := jsRound fingertipX
  let tipBrightness := tipBrightnessAt img tipX tipY
  let edgeThreshold := edgeThresholdOf tipBrightness skinBrightness
  scanOffsets.foldl (nailRowStep img edgeThreshold tipX tipY) 0

/-- The result record of calculateNailWidth: the pixel count and the method
tag (the location field merely echoes the input and is omitted). -/
structure NailWidthResult where
  pixels : ℤ
  method : String
deriving DecidableEq, Repr

/-- calculateNailWidth of detection.js (first variant): without image data or
with a failed boundary detection the result is pixels 0 and method failed;
a positive detected width is reported with method segmentation. -/
def calculateNailWidth (imageData : Option ImageQ)
    (fingertipX fingertipY : ℚ) (skinBrightness : ℚ) : NailWidthResult :=
  match imageData with
  | none => ⟨0, "failed"⟩
  | some img =>
    let actualWidth :=
      detectActualNailBoundary img fingertipX fingertipY skinBrightness
    if 0 < actualWidth then ⟨actualWidth, "segmentation"⟩
    else ⟨0, "failed"⟩

/-- The first scanned pixel whose brightness falls below the threshold
(specification vocabulary for the scan loops). -/
def firstBelow (img : ImageQ) (thr : ℚ) (scanY : ℤ) (xs : List ℤ) :
    Option ℤ :=
  xs.find? (fun x => decide (pixelBrightness img x scanY < thr))

/-- Row membership test of the specification: the scan row lies inside the
image. -/
def inBoundsRow (img : ImageQ) (y : ℤ) : Bool :=
  decide (0 ≤ y ∧ y < img.height)

/-- Modelled from the specification sentence of C5, amended: each edge is the
pixel adjacent to the first pixel scanning outward whose brightness falls
below the threshold, and stays at the anchor when no scanned pixel does. -/
def specRowWidth (img : ImageQ) (thr : ℚ) (tipX scanY : ℤ) : ℤ :=
  let leftEdge :=
    ((firstBelow img thr scanY (leftScanXs tipX)).map
      (fun x => x + 1)).getD tipX
  let rightEdge :=
    ((firstBelow img thr scanY (rightScanXs img tipX)).map
      (fun x => x - 1)).getD tipX
  rightEdge - leftEdge + 1

/-- Modelled from the specification sentence of C5, amended: the reported
width is the maximum over the in-bounds scan rows of the row widths that
exceed the 3 px plausibility bound, and 0 when no row exceeds it. -/
def specBoundaryWidth (img : ImageQ) (fingertipX fingertipY : ℚ)
    (skinBrightness : ℚ) : ℤ :=
  let tipY := jsRound fingertipY
  let tipX := jsRound fingertipX
  let edgeThreshold :=
    edgeThresholdOf (tipBrightnessAt img tipX tipY) skinBrightness
  ((((scanOffsets.map (fun offset => tipY + offset)).filter
        (inBoundsRow img)).map
      (fun y => specRowWidth img edgeThreshold tipX y)).filter
    (fun w => decide (3 < w))).foldl max 0

/-- Modelled from the specification sentence of C5 as written: when no
scanned pixel falls below the threshold, the edge is the pixel at the
maximum scan distance (60 px out, clamped to the image like the scan loop
bounds). -/
def claimedRowWidth (img : ImageQ) (thr : ℚ) (tipX scanY : ℤ) : ℤ :=
  let leftEdge :=
    ((firstBelow img thr scanY (leftScanXs tipX)).map
      (fun x => x + 1)).getD (max 0 (tipX - 60))
  let rightEdge :=
    ((firstBelow img thr scanY (rightScanXs img tipX)).map
      (fun x => x - 1)).getD (min (img.width - 1) (tipX + 60))
  rightEdge - leftEdge + 1

/-- Modelled from the specification sentence of C5 as written: the reported
width for the anchor is the maximum row width over the in-bounds scan
rows. -/
def claimedBoundaryWidth (img : ImageQ) (fingertipX fingertipY : ℚ)
    (skinBrightness : ℚ) : ℤ :=
  let tipY := jsRound fingertipY
  let tipX := jsRound fingertipX
  let edgeThreshold :=
    edgeThresholdOf (tipBrightnessAt img tipX tipY) skinBrightness
  (((scanOffsets.map (fun offset => tipY + offset)).filter
      (inBoundsRow img)).map
    (fun y => claimedRowWidth img edgeThreshold tipX y)).foldl max 0

/-- A synthetic all-black 5x3 test image. -/
def blackImg : ImageQ := ⟨5, 3, fun _ => 0⟩

/-- A synthetic uniformly bright (brightness 200) 5x3 test image. -/
def brightImg : ImageQ := ⟨5, 3, fun _ => 200⟩


/-- A 2-D point with JavaScript number coordinates. -/
structure Pt where
  x : ℚ
  y : ℚ
deriving DecidableEq, Repr

/-- The four ordered corner points of a quadrilateral candidate. -/
structure Corners4 where
  c0 : Pt
  c1 : Pt
  c2 : Pt
  c3 : Pt
deriving DecidableEq, Repr

/-- The corner points as a list, in order. -/
def cornerList (c : Corners4) : List Pt := [c.c0, c.c1, c.c2, c.c3]

/-- A fixed stand-in instantiation of the square-root parameter, used by the
concrete witness computations (the claims proved here never depend on the
numeric value of a square root). -/
def sqZero : ℚ → ℚ := fun _ => 0

/-- pointToLineDistance of modules/cardDetector.js, with Math.sqrt taken as
the parameter sq applied to the squared distance. -/
def pointToLineDistance (sq : ℚ → ℚ) (point lineStart lineEnd : Pt) : ℚ :=
  let dx := lineEnd.x - lineStart.x
  let dy := lineEnd.y - lineStart.y
  let lenSq := dx * dx + dy * dy
  if lenSq = 0 then
    sq ((point.x - lineStart.x) ^ 2 + (point.y - lineStart.y) ^ 2)
  else
    let t := max 0 (min 1
      (((point.x - lineStart.x) * dx + (point.y - lineStart.y) * dy) / lenSq))
    let projX := lineStart.x + t * dx
    let projY := lineStart.y + t * dy
    sq ((point.x - projX) ^ 2 + (point.y - projY) ^ 2)

/-- The maximum-distance search loop of the Douglas-Peucker step: walk the
interior indices 1 .. length-2 and keep the first index attaining the
maximal distance from the line through the first and last points. -/
def maxDistIdx (sq : ℚ → ℚ) (points : List Pt) : ℚ × ℕ :=
  ((List.range (points.length - 1)).drop 1).foldl
    (fun acc i =>
      let dist := pointToLineDistance sq (points.getD i ⟨0, 0⟩)
        (points.headD ⟨0, 0⟩) (points.getLastD ⟨0, 0⟩)
      if acc.1 < dist then (dist, i) else acc)
    (0, 0)

/-- The Douglas-Peucker recursion of modules/cardDetector.js. The guard of
the recursive branch adds the structural conjuncts 1 ≤ maxIdx and
maxIdx + 2 ≤ length to the source's maxDist > epsilon test: distances are
nonnegative under the real Math.sqrt, so whenever the JS branch is taken
with the nonnegative epsilon used by the caller, maxIdx was updated at
least once and these conjuncts hold (without them the JS recursion would
not terminate). -/
def douglasPeucker (sq : ℚ → ℚ) (points : List Pt) (epsilon : ℚ) :
    List Pt :=
  if h3 : points.length < 3 then points
  else
    if h : epsilon < (maxDistIdx sq points).1 ∧
        1 ≤ (maxDistIdx sq points).2 ∧
        (maxDistIdx sq points).2 + 2 ≤ points.length then
      let left :=
        douglasPeucker sq (points.take ((maxDistIdx sq points).2 + 1)) epsilon
      let right :=
        douglasPeucker sq (points.drop (maxDistIdx sq points).2) epsilon
      left.dropLast ++ right
    else
      [points.headD ⟨0, 0⟩, points.getLastD ⟨0, 0⟩]
termination_by points.length
decreasing_by
  · simp only [List.length_take]
    omega
  · simp only [List.length_drop]
    omega

/-- Perimeter of a closed contour (sum of the sq-images of the squared
segment lengths, mirroring Math.sqrt(dx^2 + dy^2) summed). -/
def perimeterOf (sq : ℚ → ℚ) (contour : List Pt) : ℚ :=
  (List.range contour.length).foldl
    (fun acc i =>
      let p1 := contour.getD i ⟨0, 0⟩
      let p2 := contour.getD ((i + 1) % contour.length) ⟨0, 0⟩
      acc + sq ((p2.x - p1.x) ^ 2 + (p2.y - p1.y) ^ 2))
    0

/-- The fixed epsilon ladder of approximatePolygon: 0.02, 0.03, 0.04, 0.05,
0.06, 0.08, 0.10 of the contour perimeter. -/
def epsilonLadder (perimeter : ℚ) : List ℚ :=
  [2/100 * perimeter, 3/100 * perimeter, 4/100 * perimeter,
   5/100 * perimeter, 6/100 * perimeter, 8/100 * perimeter,
   10/100 * perimeter]

/-- The epsilon loop of approximatePolygon: the first simplification along
the ladder with exactly 4 vertices. -/
def firstFourVertexSimplification (sq : ℚ → ℚ) (contour : List Pt) :
    List ℚ → Option (List Pt)
  | [] => none
  | epsilon :: rest =>
    let simplified := douglasPeucker sq contour epsilon
    if simplified.length = 4 then some simplified
    else firstFourVertexSimplification sq contour rest

/-- The extreme-point fallback of modules/cardDetector.js: one pass over the
contour keeping the four extreme points (the JS loop updates four
accumulators in a single pass; the fold carries them as a 4-tuple). -/
def findFourCorners (contour : List Pt) : List Pt :=
  if contour.length < 4 then contour
  else
    match contour with
    | [] => []
    | p0 :: _ =>
      let ex := contour.foldl
        (fun (acc : Pt × Pt × Pt × Pt) point =>
          (if point.x + point.y < acc.1.x + acc.1.y then point else acc.1,
           if acc.2.1.x - acc.2.1.y < point.x - point.y then point
             else acc.2.1,
           if acc.2.2.1.x + acc.2.2.1.y < point.x + point.y then point
             else acc.2.2.1,
           if -acc.2.2.2.x + acc.2.2.2.y < -point.x + point.y then point
             else acc.2.2.2))
        (p0, p0, p0, p0)
      [ex.1, ex.2.1, ex.2.2.1, ex.2.2.2]

/-- approximatePolygon of modules/cardDetector.js: contours shorter than 4
points pass through; otherwise the first 4-vertex ladder simplification
wins, with the extreme-point fallback behind it. -/
def approximatePolygon (sq : ℚ → ℚ) (contour : List Pt) : List Pt :=
  if contour.length < 4 then contour
  else
    match firstFourVertexSimplification sq contour
        (epsilonLadder (perimeterOf sq contour)) with
    | some simplified => simplified
    | none => findFourCorners contour

/-- A rectangle candidate produced by the aspect filtering of
modules/cardDetector.js (the JS field aspectRatio is called aspect here). -/
structure RectCand where
  corners : Corners4
  width : ℚ
  height : ℚ
  aspect : ℚ
  aspectError : ℚ
  guideFill : Option ℚ
deriving DecidableEq, Repr

/-- The caller-supplied guide rectangle. -/
structure GuideRegion where
  x : ℚ
  y : ℚ
  width : ℚ
  height : ℚ
deriving DecidableEq, Repr

/-- The cross-frame detector state of modules/cardDetector.js. -/
structure DetectorState where
  lastDetection : Option RectCand
  detectionHistory : List RectCand
  stableFrames : ℕ
  smoothedCorners : Option Corners4
deriving DecidableEq, Repr

/-- The state of a freshly constructed CardDetector. -/
def detectorState0 : DetectorState := ⟨none, [], 0, none⟩

/-- Math.max over the candidate widths (evaluated only on nonempty lists by
the caller). -/
def maxWidthOf (rects : List RectCand) : ℚ :=
  (rects.map (fun r => r.width)).foldl max
    ((rects.map (fun r => r.width)).headD 0)

/-- The candidate score of _selectBestCandidate: 50% relative size, 30%
aspect accuracy, 20% guide fill. A missing guide region, a candidate
without a guide-fill value, and (through JavaScript falsiness) a guide
fill of exactly 0 all leave the guide-fill score at 1. -/
def scoreOf (maxW : ℚ) (guide : Option GuideRegion) (r : RectCand) : ℚ :=
  let aspectScore := 1 - r.aspectError
  let absoluteSizeScore := r.width / maxW
  let guideFillScore :=
    match guide, r.guideFill with
    | some _, some gf =>
      if gf = 0 then 1
      else max 0 (1 - |gf - 85/100| * 2)
    | _, _ => 1
  absoluteSizeScore * (50/100) + aspectScore * (30/100) +
    guideFillScore * (20/100)

/-- One step of the best-candidate loop: strictly better scores replace the
running best (bestScore starts at 0, bestRect at null). -/
def selectStep (maxW : ℚ) (guide : Option GuideRegion)
    (acc : ℚ × Option RectCand) (r : RectCand) : ℚ × Option RectCand :=
  let score := scoreOf maxW guide r
  if acc.1 < score then (score, some r) else acc

/-- _selectBestCandidate of modules/cardDetector.js. -/
def selectBestCandidate (rects : List RectCand)
    (guide : Option GuideRegion) : Option RectCand :=
  match rects with
  | [] => none
  | _ :: _ => (rects.foldl (selectStep (maxWidthOf rects) guide) (0, none)).2

/-- One averaged corner of _smoothCorners: the current corner plus the
corresponding corners of the recent detections, rounded. -/
def smoothCorner (recent : List RectCand) (get : Corners4 → Pt)
    (current : Corners4) : Pt :=
  let sumX := recent.foldl (fun s d => s + (get d.corners).x) (get current).x
  let sumY := recent.foldl (fun s d => s + (get d.corners).y) (get current).y
  let count : ℚ := recent.length + 1
  ⟨((jsRound (sumX / count) : ℤ) : ℚ), ((jsRound (sumY / count) : ℤ) : ℚ)⟩

/-- _smoothCorners of modules/cardDetector.js: with an empty history the
current corners pass through, otherwise each corner is averaged with the
last (up to) 3 history entries. -/
def smoothCorners (history : List RectCand) (current : Corners4) :
    Corners4 :=
  match history with
  | [] => current
  | _ :: _ =>
    let recent := history.drop (history.length - 3)
    ⟨smoothCorner recent (fun c => c.c0) current,
     smoothCorner recent (fun c => c.c1) current,
     smoothCorner recent (fun c => c.c2) current,
     smoothCorner recent (fun c => c.c3) current⟩

/-- _checkConsistency of modules/cardDetector.js: the last two detections
must keep every corner within 50 px (the JS iterates corners outside and
history entries inside; the conjunction is the same). -/
def checkConsistency (sq : ℚ → ℚ) (history : List RectCand) : Bool :=
  if history.length < 2 then false
  else
    match history.drop (history.length - 2) with
    | [] => false
    | r0 :: rest =>
      rest.all (fun rj =>
        ((cornerList r0.corners).zip (cornerList rj.corners)).all
          (fun pq =>
            decide (sq ((pq.2.x - pq.1.x) ^ 2 + (pq.2.y - pq.1.y) ^ 2) ≤ 50)))

/-- _updateHistory of modules/cardDetector.js: push the detection, cap the
history at 5, and track consecutive-consistency frames. -/
def updateHistory (sq : ℚ → ℚ) (st : DetectorState)
    (detection : RectCand) : DetectorState :=
  let history1 := st.detectionHistory ++ [detection]
  let history2 := if 5 < history1.length then history1.drop 1 else history1
  let stable :=
    if 3 ≤ history2.length then
      if checkConsistency sq history2 then st.stableFrames + 1 else 0
    else st.stableFrames
  { st with detectionHistory := history2, stableFrames := stable }

/-- The selection and state-update tail of detectCard in
modules/cardDetector.js (steps 5 onward), taking the surviving rectangle
candidates of the image-processing stages as input. On a successful
selection the history is updated, corners are smoothed and the stored
lastDetection is returned; on a failed selection the history, stability
counter and smoothed corners are cleared but lastDetection is left as it
was, and that retained value is returned. -/
def detectCardFromRects (sq : ℚ → ℚ) (st : DetectorState)
    (rects : List RectCand) (guide : Option GuideRegion) :
    DetectorState × Option RectCand :=
  match selectBestCandidate rects guide with
  | some detection =>
    let st1 := updateHistory sq st detection
    let smoothed := smoothCorners st1.detectionHistory detection.corners
    let st2 := { st1 with
      smoothedCorners := some smoothed,
      lastDetection := some { detection with corners := smoothed } }
    (st2, st2.lastDetection)
  | none =>
    let st2 := { st with
      detectionHistory := [], stableFrames := 0, smoothedCorners := none }
    (st2, st2.lastDetection)

/-- A concrete well-formed candidate: a 100x63 axis-aligned rectangle with
aspect error 0 and no guide fill. -/
def goodRect : RectCand :=
  ⟨⟨⟨0, 0⟩, ⟨100, 0⟩, ⟨100, 63⟩, ⟨0, 63⟩⟩, 100, 63, 100/63, 0, none⟩


/-- A region of interest or guide rectangle of the OpenCV CardDetector. -/
structure ROI where
  x : ℚ
  y : ℚ
  width : ℚ
  height : ℚ
deriving DecidableEq, Repr

/-- A rectangle candidate of the OpenCV CardDetector (the JS field
aspectRatio is called aspect here). -/
structure CVDet where
  corners : Corners4
  width : ℚ
  height : ℚ
  area : ℚ
  aspect : ℚ
  aspectError : ℚ
deriving DecidableEq, Repr

/-- The cross-frame state of the OpenCV CardDetector: the retained
detection, the smoothed corners, the lock flag, the (never assigned)
locked template, and the tracking region of interest. -/
structure CVState where
  lastDetection : Option CVDet
  smoothedCorners : Option Corners4
  isLocked : Bool
  lockedTemplate : Option Unit
  trackingROI : Option ROI
deriving DecidableEq, Repr

/-- The tracking region computed by lock and by the tracking update: the
bounding box of the corners with 30% padding, clamped at 0 on the
top-left. -/
def computeROI (corners : Corners4) : ROI :=
  let xs := (cornerList corners).map (fun p => p.x)
  let ys := (cornerList corners).map (fun p => p.y)
  let minX := xs.foldl min (xs.headD 0)
  let maxX := xs.foldl max (xs.headD 0)
  let minY := ys.foldl min (ys.headD 0)
  let maxY := ys.foldl max (ys.headD 0)
  let padding : ℚ := 3/10
  let width := maxX - minX
  let height := maxY - minY
  ⟨max 0 (minX - width * padding), max 0 (minY - height * padding),
   width * (1 + 2 * padding), height * (1 + 2 * padding)⟩

/-- lock of the OpenCV CardDetector: ignore a missing detection, otherwise
raise the lock flag and set the tracking region (corners are always present
in the model, mirroring the `!detection.corners` guard). -/
def lockCV (st : CVState) (detection : Option CVDet) : CVState :=
  match detection with
  | none => st
  | some d =>
    { st with isLocked := true, trackingROI := some (computeROI d.corners) }

/-- unlock of the OpenCV CardDetector: clear the lock flag, the tracking
region and the locked template. -/
def unlockCV (st : CVState) : CVState :=
  { st with isLocked := false, trackingROI := none, lockedTemplate := none }

/-- _smoothCorners of the OpenCV CardDetector: exponential moving average,
85% previous and 15% current, rounded per coordinate. -/
def smoothCornersEMA (prev : Option Corners4) (current : Corners4) :
    Corners4 :=
  match prev with
  | none => current
  | some p =>
    let alpha : ℚ := 15/100
    let mix := fun (pp cc : Pt) =>
      Pt.mk ((jsRound (pp.x * (1 - alpha) + cc.x * alpha) : ℤ) : ℚ)
            ((jsRound (pp.y * (1 - alpha) + cc.y * alpha) : ℤ) : ℚ)
    ⟨mix p.c0 current.c0, mix p.c1 current.c1, mix p.c2 current.c2,
     mix p.c3 current.c3⟩

/-- _trackLockedCard of the OpenCV CardDetector, over the rectangles found
inside the tracking region (an oracle parameter standing for the OpenCV
contour pipeline): an empty list answers nothing and leaves the state
untouched; otherwise the first rectangle refreshes the tracking region,
the smoothed corners and the retained detection, which is returned. -/
def trackLockedCard (st : CVState) (trackRects : List CVDet) :
    CVState × Option CVDet :=
  match trackRects with
  | [] => (st, none)
  | d :: _ =>
    let smoothed := smoothCornersEMA st.smoothedCorners d.corners
    let last := { d with corners := smoothed }
    ({ st with trackingROI := some (computeROI d.corners),
               smoothedCorners := some smoothed,
               lastDetection := some last },
     some last)

/-- _isInsideGuide of the OpenCV CardDetector: the candidate center lies in
the guide rectangle. -/
def isInsideGuide (corners : Corners4) (guide : ROI) : Prop :=
  let centerX := (corners.c0.x + corners.c2.x) / 2
  let centerY := (corners.c0.y + corners.c2.y) / 2
  guide.x ≤ centerX ∧ centerX ≤ guide.x + guide.width ∧
  guide.y ≤ centerY ∧ centerY ≤ guide.y + guide.height

instance (corners : Corners4) (guide : ROI) :
    Decidable (isInsideGuide corners guide) := by
  unfold isInsideGuide
  infer_instance

/-- The candidate score of _selectBestCandidate in the OpenCV CardDetector:
30% brightness, 40% uniformity, 30% for sitting inside the guide. The
brightness and uniformity sampling of the image are oracle parameters. -/
def scoreCV (bright unif : CVDet → ℚ) (guide : Option ROI) (r : CVDet) :
    ℚ :=
  bright r * (30/100) + unif r * (40/100) +
    (match guide with
     | some g => if isInsideGuide r.corners g then 30/100 else 0
     | none => 0)

/-- _selectBestCandidate of the OpenCV CardDetector: with no rectangles,
nothing; with no candidate passing the brightness/uniformity filter, the
first (largest-area) rectangle anyway; otherwise the first candidate
attaining the maximal score (the JS stable descending sort followed by
taking the head). -/
def selectBestCandidateCV (bright unif : CVDet → ℚ) (rects : List CVDet)
    (guide : Option ROI) : Option CVDet :=
  match rects with
  | [] => none
  | first :: _ =>
    let validCandidates := rects.filter
      (fun r => decide (3/10 < bright r ∧ 6/10 < unif r))
    match validCandidates with
    | [] => some first
    | v :: vs =>
      some (vs.foldl
        (fun best r =>
          if scoreCV bright unif guide best < scoreCV bright unif guide r
          then r else best) v)

/-- The standard (full-frame) detection tail of detectCard in the OpenCV
CardDetector: smooth and retain a selected candidate, or clear the
smoothed corners and the retained detection. -/
def stdDetectCV (bright unif : CVDet → ℚ) (st : CVState)
    (stdRects : List CVDet) (guide : Option ROI) :
    CVState × Option CVDet :=
  match selectBestCandidateCV bright unif stdRects guide with
  | some d =>
    let smoothed := smoothCornersEMA st.smoothedCorners d.corners
    let last := { d with corners := smoothed }
    ({ st with smoothedCorners := some smoothed,
               lastDetection := some last },
     some last)
  | none =>
    ({ st with smoothedCorners := none, lastDetection := none }, none)

/-- detectCard of the OpenCV CardDetector as a state step: when locked with
a tracking region, try the tracked region first (trackRects is the oracle
for the rectangles found inside the region of interest); a tracking miss
unlocks and falls through to the standard full-frame detection within the
same call. -/
def detectCardStepCV (bright unif : CVDet → ℚ) (st : CVState)
    (trackRects stdRects : List CVDet) (guide : Option ROI) :
    CVState × Option CVDet :=
  if st.isLocked ∧ st.trackingROI.isSome then
    match trackLockedCard st trackRects with
    | (st1, some d) => (st1, some d)
    | (_, none) => stdDetectCV bright unif (unlockCV st) stdRects guide
  else stdDetectCV bright unif st stdRects guide

/-- A concrete locked state used by the C8 witness. -/
def lockedState0 : CVState := ⟨none, none, true, none, some ⟨0, 0, 10, 10⟩⟩


end SizeKit

namespace SizeKit

/-- Rounding is monotone, since the floor function is. -/
theorem jsRound_mono {a b : ℚ} (h : a ≤ b) : jsRound a ≤ jsRound b :=
  Int.floor_le_floor (by linarith)

set_option maxHeartbeats 1000000 in
/-- Closed form of the point-table conversion: the result is always
17 minus the rounded millimeter value, clamped to the size range 0 - 9. -/
theorem mmToSizeNumber_eq (mm : ℚ) :
    mmToSizeNumber mm = max 0 (min 9 (17 - jsRound mm)) := by
  rw [mmToSizeNumber]
  generalize jsRound mm = r
  simp only [NAIL_SIZE_TABLE, findByMm]
  split_ifs <;> simp only [] <;> omega

/-- Lower floor bound transfer from a rational inequality. -/
theorem floorGe {c : ℤ} {mm : ℚ} (h : (c : ℚ) ≤ mm) : c ≤ ⌊mm⌋ :=
  Int.le_floor.mpr h

/-- Upper floor bound transfer from a rational inequality. -/
theorem floorLt {c : ℤ} {mm : ℚ} (h : mm < (c : ℚ)) : ⌊mm⌋ < c :=
  Int.floor_lt.mpr h

set_option maxHeartbeats 1000000 in
/-- Closed form of the band-table conversion: the result is always 16 minus
the floor of the millimeter value, clamped to the size range 0 - 11. -/
theorem mmToSizeNumberBands_eq (mm : ℚ) :
    mmToSizeNumberBands mm = max 0 (min 11 (16 - ⌊mm⌋)) := by
  simp only [mmToSizeNumberBands, nailSizeTableBands, findBand]
  by_cases h0 : (16:ℚ) ≤ mm ∧ mm < (18:ℚ)
  · rw [if_pos h0]
    simp only [Option.map_some', Option.getD_some]
    have a1 := floorGe (c := 16) (by exact_mod_cast h0.1)
    have a2 := floorLt (c := 18) (by exact_mod_cast h0.2)
    omega
  rw [if_neg h0]
  by_cases h1 : (15:ℚ) ≤ mm ∧ mm < (16:ℚ)
  · rw [if_pos h1]
    simp only [Option.map_some', Option.getD_some]
    have a1 := floorGe (c := 15) (by exact_mod_cast h1.1)
    have a2 := floorLt (c := 16) (by exact_mod_cast h1.2)
    omega
  rw [if_neg h1]
  by_cases h2 : (14:ℚ) ≤ mm ∧ mm < (15:ℚ)
  · rw [if_pos h2]
    simp only [Option.map_some', Option.getD_some]
    have a1 := floorGe (c := 14) (by exact_mod_cast h2.1)
    have a2 := floorLt (c := 15) (by exact_mod_cast h2.2)
    omega
  rw [if_neg h2]
  by_cases h3 : (13:ℚ) ≤ mm ∧ mm < (14:ℚ)
  · rw [if_pos h3]
    simp only [Option.map_some', Option.getD_some]
    have a1 := floorGe (c := 13) (by exact_mod_cast h3.1)
    have a2 := floorLt (c := 14) (by exact_mod_cast h3.2)
    omega
  rw [if_neg h3]
  by_cases h4 : (12:ℚ) ≤ mm ∧ mm < (13:ℚ)
  · rw [if_pos h4]
    simp only [Option.map_some', Option.getD_some]
    have a1 := floorGe (c := 12) (by exact_mod_cast h4.1)
    have a2 := floorLt (c := 13) (by exact_mod_cast h4.2)
    omega
  rw [if_neg h4]
  by_cases h5 : (11:ℚ) ≤ mm ∧ mm < (12:ℚ)
  · rw [if_pos h5]
    simp only [Option.map_some', Option.getD_some]
    have a1 := floorGe (c := 11) (by exact_mod_cast h5.1)
    have a2 := floorLt (c := 12) (by exact_mod_cast h5.2)
    omega
  rw [if_neg h5]
  by_cases h6 : (10:ℚ) ≤ mm ∧ mm < (11:ℚ)
  · rw [if_pos h6]
    simp only [Option.map_some', Option.getD_some]
    have a1 := floorGe (c := 10) (by exact_mod_cast h6.1)
    have a2 := floorLt (c := 11) (by exact_mod_cast h6.2)
    omega
  rw [if_neg h6]
  by_cases h7 : (9:ℚ) ≤ mm ∧ mm < (10:ℚ)
  · rw [if_pos h7]
    simp only [Option.map_some', Option.getD_some]
    have a1 := floorGe (c := 9) (by exact_mod_cast h7.1)
    have a2 := floorLt (c := 10) (by exact_mod_cast h7.2)
    omega
  rw [if_neg h7]
  by_cases h8 : (8:ℚ) ≤ mm ∧ mm < (9:ℚ)
  · rw [if_pos h8]
    simp only [Option.map_some', Option.getD_some]
    have a1 := floorGe (c := 8) (by exact_mod_cast h8.1)
    have a2 := floorLt (c := 9) (by exact_mod_cast h8.2)
    omega
  rw [if_neg h8]
  by_cases h9 : (7:ℚ) ≤ mm ∧ mm < (8:ℚ)
  · rw [if_pos h9]
    simp only [Option.map_some', Option.getD_some]
    have a1 := floorGe (c := 7) (by exact_mod_cast h9.1)
    have a2 := floorLt (c := 8) (by exact_mod_cast h9.2)
    omega
  rw [if_neg h9]
  by_cases h10 : (6:ℚ) ≤ mm ∧ mm < (7:ℚ)
  · rw [if_pos h10]
    simp only [Option.map_some', Option.getD_some]
    have a1 := floorGe (c := 6) (by exact_mod_cast h10.1)
    have a2 := floorLt (c := 7) (by exact_mod_cast h10.2)
    omega
  rw [if_neg h10]
  by_cases h11 : (5:ℚ) ≤ mm ∧ mm < (6:ℚ)
  · rw [if_pos h11]
    simp only [Option.map_some', Option.getD_some]
    have a1 := floorGe (c := 5) (by exact_mod_cast h11.1)
    have a2 := floorLt (c := 6) (by exact_mod_cast h11.2)
    omega
  rw [if_neg h11]
  simp only [Option.map_none', Option.getD_none]
  by_cases hge : (18:ℚ) ≤ mm
  · rw [if_pos hge]
    have a1 := floorGe (c := 18) (by exact_mod_cast hge)
    omega
  rw [if_neg hge]
  by_cases hlt : mm < (5:ℚ)
  · rw [if_pos hlt]
    have a2 := floorLt (c := 5) (by exact_mod_cast hlt)
    omega
  rw [if_neg hlt]
  exfalso
  rw [not_and, not_lt] at h0 h1 h2 h3 h4 h5 h6 h7 h8 h9 h10 h11
  rw [not_le] at hge
  rw [not_lt] at hlt
  have c6 := h11 hlt
  have c7 := h10 (by linarith)
  have c8 := h9 (by linarith)
  have c9 := h8 (by linarith)
  have c10 := h7 (by linarith)
  have c11 := h6 (by linarith)
  have c12 := h5 (by linarith)
  have c13 := h4 (by linarith)
  have c14 := h3 (by linarith)
  have c15 := h2 (by linarith)
  have c16 := h1 (by linarith)
  have c18 := h0 (by linarith)
  linarith

/-- C9: mmToSizeNumber is monotonic non-increasing in millimeters, in both
the point-table variant of detection.js and the band-table variant of
src/measurements.js: a larger millimeter measurement never yields a larger
size number. -/
theorem c9_mm_to_size_monotone (a b : ℚ) (h : a ≤ b) :
    mmToSizeNumber b ≤ mmToSizeNumber a ∧
    mmToSizeNumberBands b ≤ mmToSizeNumberBands a := by
  constructor
  · rw [mmToSizeNumber_eq, mmToSizeNumber_eq]
    have := jsRound_mono h
    omega
  · rw [mmToSizeNumberBands_eq, mmToSizeNumberBands_eq]
    have := Int.floor_le_floor h
    omega

/-- Witness for C9 at the concrete pair 3 ≤ 20. -/
theorem c9_mm_to_size_monotone_witness :
    (3 : ℚ) ≤ 20 ∧
    (mmToSizeNumber 20 ≤ mmToSizeNumber 3 ∧
     mmToSizeNumberBands 20 ≤ mmToSizeNumberBands 3) :=
  ⟨by norm_num, c9_mm_to_size_monotone 3 20 (by norm_num)⟩

/-- C10: both sizeNumberToMm variants are total, answering a fixed default
for every size number outside the table: 13 mm for the point-table variant
of detection.js (sizes 0 - 9), and the band min 7, max 18, average 12 for
the band-table variant of src/measurements.js (sizes 0 - 11). -/
theorem c10_size_to_mm_total_default :
    (∀ n : ℤ, n < 0 ∨ 9 < n → sizeNumberToMm n = 13) ∧
    (∀ n : ℤ, n < 0 ∨ 11 < n → sizeNumberToMmBand n = ⟨7, 18, 12⟩) := by
  constructor
  · intro n h
    have hnone : findBySize NAIL_SIZE_TABLE n = none := by
      simp only [NAIL_SIZE_TABLE, findBySize]
      rw [if_neg (by omega : ¬((0:ℤ) = n)), if_neg (by omega : ¬((1:ℤ) = n)),
        if_neg (by omega : ¬((2:ℤ) = n)), if_neg (by omega : ¬((3:ℤ) = n)),
        if_neg (by omega : ¬((4:ℤ) = n)), if_neg (by omega : ¬((5:ℤ) = n)),
        if_neg (by omega : ¬((6:ℤ) = n)), if_neg (by omega : ¬((7:ℤ) = n)),
        if_neg (by omega : ¬((8:ℤ) = n)), if_neg (by omega : ¬((9:ℤ) = n))]
    rw [sizeNumberToMm, hnone]
  · intro n h
    have hnone : findBandBySize nailSizeTableBands n = none := by
      simp only [nailSizeTableBands, findBandBySize]
      rw [if_neg (by omega : ¬((0:ℤ) = n)), if_neg (by omega : ¬((1:ℤ) = n)),
        if_neg (by omega : ¬((2:ℤ) = n)), if_neg (by omega : ¬((3:ℤ) = n)),
        if_neg (by omega : ¬((4:ℤ) = n)), if_neg (by omega : ¬((5:ℤ) = n)),
        if_neg (by omega : ¬((6:ℤ) = n)), if_neg (by omega : ¬((7:ℤ) = n)),
        if_neg (by omega : ¬((8:ℤ) = n)), if_neg (by omega : ¬((9:ℤ) = n)),
        if_neg (by omega : ¬((10:ℤ) = n)), if_neg (by omega : ¬((11:ℤ) = n))]
    rw [sizeNumberToMmBand, hnone]

/-- Witness for C10 at the concrete out-of-table sizes 12 and 99. -/
theorem c10_size_to_mm_total_default_witness :
    sizeNumberToMm 12 = 13 ∧ sizeNumberToMmBand 99 = ⟨7, 18, 12⟩ :=
  ⟨c10_size_to_mm_total_default.1 12 (by norm_num),
   c10_size_to_mm_total_default.2 99 (by norm_num)⟩

/-- C3: the end-to-end scenario. A detected polygon of width 428 px against
the 85.6 mm card yields exactly 5 pixels per millimeter; a 75 px nail scan
then yields a 15.0 mm chord and a 15.9 mm curved length under the 1.06
multiplier, and the size lookup of 15.9 mm answers size 1, the table entry
covering 15 - 16 mm. -/
theorem c3_end_to_end :
    pixelsPerMmOfWidth 428 = 5 ∧
    measureNails [⟨"Index", 75⟩] 5 1 =
      [⟨"Index", 15, 159/10, 159/10, 1, 1⟩] ∧
    mmToSizeNumber (159/10) = 1 := by
  have hscale : pixelsPerMmOfWidth 428 = 5 := by
    rw [pixelsPerMmOfWidth]; norm_num
  have hchord : (75:ℚ) / 5 = 15 := by norm_num
  have hcurved : (15:ℚ) * CURVATURE_MULTIPLIER = 159/10 := by
    rw [CURVATURE_MULTIPLIER]; norm_num
  have hround : jsRound (159/10) = 16 := by rw [jsRound]; norm_num
  have hsize : mmToSizeNumber (159/10) = 1 := by
    rw [mmToSizeNumber_eq, hround]; decide
  have hr15 : round10 (15:ℚ) = 15 := by
    rw [round10, jsRound]; norm_num
  have hr159 : round10 ((159:ℚ)/10) = 159/10 := by
    rw [round10, jsRound]; norm_num
  refine ⟨hscale, ?_, hsize⟩
  simp only [measureNails, List.map_cons, List.map_nil, measureNail,
    hchord, hcurved, hsize, hr15, hr159]
  norm_num

/-- C1 counterexample: measureNails does produce a defaulted ordinal size for
a digit whose boundary detection failed. On the concrete hand data with one
failed nail (0 px) and scale 5 px/mm, the output carries the genuine table
size 9 for that digit. -/
theorem c1_counterexample :
    measureNails [⟨"Index", 0⟩] 5 (9/10) =
      [⟨"Index", 0, 0, 0, 9, 0⟩] ∧
    (9 : ℤ) ∈ NAIL_SIZE_TABLE.map SizeEntry.size := by
  have hchord : (0:ℚ) / 5 = 0 := by norm_num
  have hcurved : (0:ℚ) * CURVATURE_MULTIPLIER = 0 := by norm_num
  have hj : jsRound 0 = 0 := by rw [jsRound]; norm_num
  have hsize : mmToSizeNumber 0 = 9 := by
    rw [mmToSizeNumber_eq]
    norm_num [jsRound]
  have hr0 : round10 (0:ℚ) = 0 := by rw [round10, jsRound]; norm_num
  constructor
  · simp only [measureNails, List.map_cons, List.map_nil, measureNail,
      hchord, hcurved, hsize, hr0]
    norm_num
  · simp [NAIL_SIZE_TABLE]

/-- C1 amended: measureNails converts every nail of the hand data, including
failed ones. A digit whose boundary detection failed (pixel width 0) is
mapped to chord 0 mm, curved 0 mm and the ordinal size 9 (the smallest table
size, via the clamp of mmToSizeNumber at 0 mm); the failure is marked only
by the confidence 0 of that entry. -/
theorem c1_failed_nail_defaulted (pixelsPerMm handConfidence : ℚ)
    (nail : Nail) (h : nail.widthPixels = 0) :
    measureNail pixelsPerMm handConfidence nail =
      { finger := nail.finger, chordMm := 0, curvedMm := 0, widthMm := 0,
        sizeNumber := 9, confidence := 0 } := by
  have hsize : mmToSizeNumber 0 = 9 := by
    rw [mmToSizeNumber_eq]
    norm_num [jsRound]
  have hr0 : round10 (0:ℚ) = 0 := by rw [round10, jsRound]; norm_num
  simp only [measureNail, h, zero_div, zero_mul, hsize, hr0]
  norm_num

/-- Witness for the amended C1 at a concrete failed nail. -/
theorem c1_failed_nail_defaulted_witness :
    (Nail.mk "Thumb" 0).widthPixels = 0 ∧
    measureNail 7 (1/2) (Nail.mk "Thumb" 0) =
      { finger := "Thumb", chordMm := 0, curvedMm := 0, widthMm := 0,
        sizeNumber := 9, confidence := 0 } :=
  ⟨rfl, c1_failed_nail_defaulted 7 (1/2) (Nail.mk "Thumb" 0) rfl⟩

/-- C6: an implausible scale is rejected. Whenever the computed scale
candidate.width / 85.6 falls outside the configured range 2 - 50 pixels per
millimeter, calculateNailSizes raises the invalid-scale error and returns no
measurements. -/
theorem c6_invalid_scale_rejected (hd : HandData) (w : ℚ)
    (h : ¬ isValidScale (pixelsPerMmOfWidth w)) :
    calculateNailSizes (some hd) (some ⟨pixelsPerMmOfWidth w⟩) =
      .error .invalidScale := by
  rw [calculateNailSizes]
  simp only [if_neg h]

/-- Witness for C6: a 17120 px wide candidate yields 200 px/mm, outside the
plausible range, and the measurement call answers the invalid-scale error. -/
theorem c6_invalid_scale_rejected_witness :
    ¬ isValidScale (pixelsPerMmOfWidth 17120) ∧
    calculateNailSizes (some ⟨[⟨"Index", 60⟩], some (9/10)⟩)
        (some ⟨pixelsPerMmOfWidth 17120⟩) = .error .invalidScale :=
  ⟨by norm_num [isValidScale, pixelsPerMmOfWidth],
   c6_invalid_scale_rejected ⟨[⟨"Index", 60⟩], some (9/10)⟩ 17120
     (by norm_num [isValidScale, pixelsPerMmOfWidth])⟩


/-- The scan loop equals: first pixel below the threshold, adjusted, with the
anchor as fallback. -/
theorem scanBreak_eq (img : ImageQ) (thr : ℚ) (scanY adjust fallback : ℤ)
    (xs : List ℤ) :
    scanBreak img thr scanY adjust fallback xs =
      ((firstBelow img thr scanY xs).map (fun x => x + adjust)).getD
        fallback := by
  induction xs with
  | nil => rfl
  | cons a t ih =>
    rw [scanBreak, firstBelow]
    by_cases hc : pixelBrightness img a scanY < thr
    · rw [if_pos hc, List.find?_cons_of_pos _ (by simpa using hc)]
      rfl
    · rw [if_neg hc, List.find?_cons_of_neg _ (by simpa using hc), ih,
        firstBelow]

/-- The row width computed by the source loops equals the specification row
width with the anchor fallback. -/
theorem rowWidthAt_eq_specRowWidth (img : ImageQ) (thr : ℚ)
    (tipX scanY : ℤ) :
    rowWidthAt img thr tipX scanY = specRowWidth img thr tipX scanY := by
  rw [rowWidthAt, specRowWidth, scanBreak_eq, scanBreak_eq]
  rcases hL : firstBelow img thr scanY (leftScanXs tipX) with _ | xl <;>
    rcases hR : firstBelow img thr scanY (rightScanXs img tipX) with _ | xr <;>
      simp only [hL, hR, Option.map_some', Option.map_none',
        Option.getD_some, Option.getD_none] <;> omega

/-- The scan-line fold of the source equals the specification shape: maximum
over the in-bounds rows of the specification row widths exceeding 3 px. -/
theorem nailScanFold_eq_spec (img : ImageQ) (thr : ℚ) (tipX tipY : ℤ)
    (l : List ℤ) (m : ℤ) :
    l.foldl (nailRowStep img thr tipX tipY) m =
    ((((l.map (fun offset => tipY + offset)).filter (inBoundsRow img)).map
        (fun y => specRowWidth img thr tipX y)).filter
      (fun w => decide (3 < w))).foldl max m := by
  induction l generalizing m with
  | nil => rfl
  | cons a t ih =>
    rw [List.foldl_cons, List.map_cons]
    by_cases hb : 0 ≤ tipY + a ∧ tipY + a < img.height
    · rw [List.filter_cons_of_pos (by simpa [inBoundsRow] using hb),
        List.map_cons]
      by_cases hw : 3 < specRowWidth img thr tipX (tipY + a)
      · rw [List.filter_cons_of_pos (by simpa using hw), List.foldl_cons]
        have hstep : nailRowStep img thr tipX tipY m a =
            max m (specRowWidth img thr tipX (tipY + a)) := by
          simp only [nailRowStep, rowWidthAt_eq_specRowWidth]
          rw [if_neg (by omega)]
          by_cases hmw : m < specRowWidth img thr tipX (tipY + a)
          · rw [if_pos ⟨hmw, hw⟩]; omega
          · rw [if_neg (fun hcon => hmw hcon.1)]; omega
        rw [hstep, ih]
      · rw [List.filter_cons_of_neg (by simpa using hw)]
        have hstep : nailRowStep img thr tipX tipY m a = m := by
          simp only [nailRowStep, rowWidthAt_eq_specRowWidth]
          rw [if_neg (by omega), if_neg (fun hcon => hw hcon.2)]
        rw [hstep, ih]
    · rw [List.filter_cons_of_neg (by simpa [inBoundsRow] using hb)]
      have hstep : nailRowStep img thr tipX tipY m a = m := by
        simp only [nailRowStep]
        rw [if_pos (by omega)]
      rw [hstep, ih]

/-- C5 amended: the boundary detector implements the scan-row semantics with
the anchor (not the 60 px extreme) as the no-edge fallback, and reports the
maximum over the in-bounds rows of the row widths exceeding 3 px (0 when no
row exceeds it). -/
theorem c5_scan_semantics (img : ImageQ) (fingertipX fingertipY : ℚ)
    (skinBrightness : ℚ) :
    detectActualNailBoundary img fingertipX fingertipY skinBrightness =
      specBoundaryWidth img fingertipX fingertipY skinBrightness := by
  simp only [detectActualNailBoundary, specBoundaryWidth]
  exact nailScanFold_eq_spec img _ _ _ scanOffsets 0

/-- C5 counterexample: on a uniformly bright image (every pixel 200, skin
estimate 100, threshold 150) no scanned pixel falls below the threshold.
The claimed semantics (edges at the maximum scan distance) reports the full
scan span, 5 px on this 5x3 image, while the code reports 0, because each
edge stays at the anchor, making every row 1 px wide, below the 3 px
bound. -/
theorem c5_counterexample :
    detectActualNailBoundary brightImg 2 1 100 = 0 ∧
    claimedBoundaryWidth brightImg 2 1 100 = 5 := by
  have hj2 : jsRound 2 = 2 := by rw [jsRound]; norm_num
  have hj1 : jsRound 1 = 1 := by rw [jsRound]; norm_num
  have hL : leftScanXs 2 = [2, 1, 0] := by decide
  have hR : rightScanXs brightImg 2 = [2, 3, 4] := by decide
  have hbright : ∀ x y : ℤ, pixelBrightness brightImg x y = 200 := by
    intro x y
    simp only [pixelBrightness, brightImg]
    norm_num
  have htip : tipBrightnessAt brightImg 2 1 = 200 := by
    simp only [tipBrightnessAt, sampleOffsets, brightImg, List.foldl_cons,
      List.foldl_nil]
    norm_num [pixelBrightness]
  have hthr : edgeThresholdOf (tipBrightnessAt brightImg 2 1) 100 = 150 := by
    rw [htip, edgeThresholdOf]
    norm_num
  have hd : (decide ((200:ℚ) < 150)) = false :=
    decide_eq_false_iff_not.mpr (by norm_num)
  have hfbL : firstBelow brightImg 150 1 (leftScanXs 2) = none := by
    rw [hL, firstBelow]
    simp [List.find?, hbright, hd]
  have hfbR : firstBelow brightImg 150 1 (rightScanXs brightImg 2) = none := by
    rw [hR, firstBelow]
    simp [List.find?, hbright, hd]
  have hh3 : brightImg.height = 3 := rfl
  have hw5 : brightImg.width = 5 := rfl
  have hrow : ∀ y : ℤ, rowWidthAt brightImg 150 2 y = 1 := by
    intro y
    simp only [rowWidthAt, hL, hR]
    norm_num [scanBreak, hbright]
  constructor
  · simp only [detectActualNailBoundary, hj2, hj1, hthr, scanOffsets]
    norm_num [nailRowStep, hrow, hh3]
  · simp only [claimedBoundaryWidth, hj2, hj1, hthr, scanOffsets]
    norm_num [inBoundsRow, claimedRowWidth, hfbL, hfbR, hh3, hw5]

/-- With every row width at most 3 px the scan fold stays at 0. -/
theorem nailScanFold_zero (img : ImageQ) (thr : ℚ) (tipX tipY : ℤ)
    (l : List ℤ) (h : ∀ o ∈ l, rowWidthAt img thr tipX (tipY + o) ≤ 3) :
    l.foldl (nailRowStep img thr tipX tipY) 0 = 0 := by
  induction l with
  | nil => rfl
  | cons a t ih =>
    rw [List.foldl_cons]
    have ha := h a (List.mem_cons_self a t)
    have hstep : nailRowStep img thr tipX tipY 0 a = 0 := by
      simp only [nailRowStep]
      split_ifs with h1 h2
      · rfl
      · omega
      · rfl
    rw [hstep]
    exact ih (fun o ho => h o (List.mem_cons_of_mem a ho))

/-- C4: when no scan row yields a width above the 3 px plausibility bound,
detectActualNailBoundary answers 0 and calculateNailWidth reports the
explicit failure (pixels 0, method failed); no default width is
substituted. -/
theorem c4_boundary_failure_explicit (img : ImageQ)
    (fingertipX fingertipY skinBrightness : ℚ)
    (h : ∀ o ∈ scanOffsets,
      rowWidthAt img
        (edgeThresholdOf
          (tipBrightnessAt img (jsRound fingertipX) (jsRound fingertipY))
          skinBrightness)
        (jsRound fingertipX) (jsRound fingertipY + o) ≤ 3) :
    detectActualNailBoundary img fingertipX fingertipY skinBrightness = 0 ∧
    calculateNailWidth (some img) fingertipX fingertipY skinBrightness =
      ⟨0, "failed"⟩ := by
  have hzero :
      detectActualNailBoundary img fingertipX fingertipY skinBrightness = 0 := by
    simp only [detectActualNailBoundary]
    exact nailScanFold_zero img _ _ _ scanOffsets h
  refine ⟨hzero, ?_⟩
  simp only [calculateNailWidth, hzero]
  rw [if_neg (lt_irrefl 0)]

/-- Witness for C4: the all-black image (threshold 102 from the skin estimate
100) makes every scan break at the anchor, every row width is -1, and the
call reports the explicit failure. -/
theorem c4_boundary_failure_explicit_witness :
    (∀ o ∈ scanOffsets,
      rowWidthAt blackImg
        (edgeThresholdOf (tipBrightnessAt blackImg (jsRound 2) (jsRound 1))
          100)
        (jsRound 2) (jsRound 1 + o) ≤ 3) ∧
    (detectActualNailBoundary blackImg 2 1 100 = 0 ∧
     calculateNailWidth (some blackImg) 2 1 100 = ⟨0, "failed"⟩) := by
  have hj2 : jsRound 2 = 2 := by rw [jsRound]; norm_num
  have hj1 : jsRound 1 = 1 := by rw [jsRound]; norm_num
  have hdark : ∀ x y : ℤ, pixelBrightness blackImg x y = 0 := by
    intro x y
    simp only [pixelBrightness, blackImg]
    norm_num
  have htip : tipBrightnessAt blackImg 2 1 = 0 := by
    simp only [tipBrightnessAt, sampleOffsets, blackImg, List.foldl_cons,
      List.foldl_nil]
    norm_num [pixelBrightness]
  have hthr : edgeThresholdOf (tipBrightnessAt blackImg 2 1) 100 = 102 := by
    rw [htip, edgeThresholdOf]
    norm_num
  have hL : leftScanXs 2 = [2, 1, 0] := by decide
  have hrow : ∀ y : ℤ, rowWidthAt blackImg 102 2 y = -1 := by
    intro y
    rw [rowWidthAt, hL]
    rw [show rightScanXs blackImg 2 = [2, 3, 4] from by decide]
    rw [scanBreak, if_pos (by rw [hdark]; norm_num)]
    rw [scanBreak, if_pos (by rw [hdark]; norm_num)]
    norm_num
  have h : ∀ o ∈ scanOffsets,
      rowWidthAt blackImg
        (edgeThresholdOf (tipBrightnessAt blackImg (jsRound 2) (jsRound 1))
          100)
        (jsRound 2) (jsRound 1 + o) ≤ 3 := by
    intro o ho
    rw [hj2, hj1, hthr, hrow]
    norm_num
  exact ⟨h, c4_boundary_failure_explicit blackImg 2 1 100 h⟩


/-- Every simplification delivered by the epsilon ladder loop has exactly 4
vertices, by the loop's own test. -/
theorem firstFourVertexSimplification_length (sq : ℚ → ℚ)
    (contour : List Pt) (ladder : List ℚ) (s : List Pt)
    (h : firstFourVertexSimplification sq contour ladder = some s) :
    s.length = 4 := by
  induction ladder with
  | nil => cases h
  | cons eps rest ih =>
    rw [firstFourVertexSimplification] at h
    by_cases hc : (douglasPeucker sq contour eps).length = 4
    · rw [if_pos hc] at h
      cases h
      exact hc
    · rw [if_neg hc] at h
      exact ih h

/-- The extreme-point fallback yields exactly 4 points on contours with at
least 4 points. -/
theorem findFourCorners_length (contour : List Pt)
    (h : 4 ≤ contour.length) :
    (findFourCorners contour).length = 4 := by
  cases contour with
  | nil => simp at h
  | cons p rest =>
    rw [findFourCorners, if_neg (by omega)]
    rfl

/-- C7: polygon approximation of a contour with at least 4 points always
yields exactly 4 vertices; the result is the first Douglas-Peucker
simplification along the fixed epsilon ladder with exactly 4 vertices when
one exists, and the 4 extreme points of the contour otherwise. -/
theorem c7_polygon_four_vertices (sq : ℚ → ℚ) (contour : List Pt)
    (h : 4 ≤ contour.length) :
    (approximatePolygon sq contour).length = 4 ∧
    (∀ s, firstFourVertexSimplification sq contour
        (epsilonLadder (perimeterOf sq contour)) = some s →
      approximatePolygon sq contour = s ∧ s.length = 4) ∧
    (firstFourVertexSimplification sq contour
        (epsilonLadder (perimeterOf sq contour)) = none →
      approximatePolygon sq contour = findFourCorners contour) := by
  have hnotlt : ¬ contour.length < 4 := by omega
  rcases hf : firstFourVertexSimplification sq contour
      (epsilonLadder (perimeterOf sq contour)) with _ | s
  · refine ⟨?_, ?_, ?_⟩
    · rw [approximatePolygon, if_neg hnotlt, hf]
      exact findFourCorners_length contour h
    · intro s2 hs2
      cases hs2
    · intro _
      rw [approximatePolygon, if_neg hnotlt, hf]
  · have hlen := firstFourVertexSimplification_length sq contour
      (epsilonLadder (perimeterOf sq contour)) s hf
    refine ⟨?_, ?_, ?_⟩
    · rw [approximatePolygon, if_neg hnotlt, hf]
      exact hlen
    · intro s2 hs2
      cases hs2
      exact ⟨by rw [approximatePolygon, if_neg hnotlt, hf], hlen⟩
    · intro hn
      cases hn

/-- Witness for C7 on a concrete 4-point contour. -/
theorem c7_polygon_four_vertices_witness :
    4 ≤ ([⟨0, 0⟩, ⟨4, 0⟩, ⟨4, 2⟩, ⟨0, 2⟩] : List Pt).length ∧
    (approximatePolygon sqZero [⟨0, 0⟩, ⟨4, 0⟩, ⟨4, 2⟩, ⟨0, 2⟩]).length = 4 :=
  ⟨by norm_num,
   (c7_polygon_four_vertices sqZero [⟨0, 0⟩, ⟨4, 0⟩, ⟨4, 2⟩, ⟨0, 2⟩]
     (by norm_num)).1⟩

/-- Invariants of the best-candidate loop: the running score never
decreases, dominates every processed score, and the accumulator either
survives untouched or carries a processed candidate together with its
score. -/
theorem selectFold_spec (maxW : ℚ) (guide : Option GuideRegion)
    (l : List RectCand) (acc : ℚ × Option RectCand) :
    acc.1 ≤ (l.foldl (selectStep maxW guide) acc).1 ∧
    (∀ r ∈ l, scoreOf maxW guide r ≤ (l.foldl (selectStep maxW guide) acc).1) ∧
    ((l.foldl (selectStep maxW guide) acc) = acc ∨
      ∃ r ∈ l, (l.foldl (selectStep maxW guide) acc).2 = some r ∧
        (l.foldl (selectStep maxW guide) acc).1 = scoreOf maxW guide r ∧
        acc.1 < (l.foldl (selectStep maxW guide) acc).1) := by
  induction l generalizing acc with
  | nil => exact ⟨le_refl _, by simp, Or.inl rfl⟩
  | cons a t ih =>
    rw [List.foldl_cons]
    by_cases hc : acc.1 < scoreOf maxW guide a
    · have hstep : selectStep maxW guide acc a =
          (scoreOf maxW guide a, some a) := by
        simp only [selectStep]
        rw [if_pos hc]
      rw [hstep]
      obtain ⟨h1, h2, h3⟩ := ih (scoreOf maxW guide a, some a)
      refine ⟨le_of_lt (lt_of_lt_of_le hc h1), ?_, ?_⟩
      · intro r hr
        rcases List.mem_cons.mp hr with rfl | hrt
        · exact h1
        · exact h2 r hrt
      · rcases h3 with heq | ⟨r, hrt, hsome, hscore, hlt⟩
        · refine Or.inr ⟨a, List.mem_cons_self a t, ?_, ?_, ?_⟩
          · rw [heq]
          · rw [heq]
          · rw [heq]
            exact hc
        · exact Or.inr ⟨r, List.mem_cons_of_mem a hrt, hsome, hscore,
            lt_of_lt_of_le hc h1⟩
    · have hstep : selectStep maxW guide acc a = acc := by
        simp only [selectStep]
        rw [if_neg hc]
      rw [hstep]
      obtain ⟨h1, h2, h3⟩ := ih acc
      refine ⟨h1, ?_, ?_⟩
      · intro r hr
        rcases List.mem_cons.mp hr with rfl | hrt
        · exact le_trans (le_of_not_lt hc) h1
        · exact h2 r hrt
      · rcases h3 with heq | ⟨r, hrt, hsome, hscore, hlt⟩
        · exact Or.inl heq
        · exact Or.inr ⟨r, List.mem_cons_of_mem a hrt, hsome, hscore, hlt⟩

/-- The loop leaves the accumulator untouched when no processed score beats
it. -/
theorem selectFold_stay (maxW : ℚ) (guide : Option GuideRegion)
    (l : List RectCand) (acc : ℚ × Option RectCand)
    (h : ∀ r ∈ l, scoreOf maxW guide r ≤ acc.1) :
    l.foldl (selectStep maxW guide) acc = acc := by
  induction l with
  | nil => rfl
  | cons a t ih =>
    rw [List.foldl_cons]
    have hstep : selectStep maxW guide acc a = acc := by
      simp only [selectStep]
      rw [if_neg (not_lt.mpr (h a (List.mem_cons_self a t)))]
    rw [hstep]
    exact ih (fun r hr => h r (List.mem_cons_of_mem a hr))

/-- _selectBestCandidate answers nothing exactly when no candidate scores
above 0 (in particular on the empty candidate list). -/
theorem selectBest_none_iff (rects : List RectCand)
    (guide : Option GuideRegion) :
    selectBestCandidate rects guide = none ↔
    ∀ r ∈ rects, scoreOf (maxWidthOf rects) guide r ≤ 0 := by
  cases rects with
  | nil => simp [selectBestCandidate]
  | cons a t =>
    rw [selectBestCandidate]
    constructor
    · intro hnone r hr
      obtain ⟨h1, h2, h3⟩ :=
        selectFold_spec (maxWidthOf (a :: t)) guide (a :: t) (0, none)
      rcases h3 with heq | ⟨r2, hr2, hsome, hscore, hlt⟩
      · have := h2 r hr
        rw [heq] at this
        exact this
      · rw [hsome] at hnone
        cases hnone
    · intro hall
      rw [selectFold_stay (maxWidthOf (a :: t)) guide (a :: t) (0, none) hall]

/-- A delivered best candidate belongs to the list, scores above 0 and
dominates every candidate score. -/
theorem selectBest_some (rects : List RectCand) (guide : Option GuideRegion)
    (r : RectCand) (h : selectBestCandidate rects guide = some r) :
    r ∈ rects ∧ 0 < scoreOf (maxWidthOf rects) guide r ∧
    ∀ x ∈ rects, scoreOf (maxWidthOf rects) guide x ≤
      scoreOf (maxWidthOf rects) guide r := by
  cases rects with
  | nil => cases h
  | cons a t =>
    rw [selectBestCandidate] at h
    obtain ⟨h1, h2, h3⟩ :=
      selectFold_spec (maxWidthOf (a :: t)) guide (a :: t) (0, none)
    rcases h3 with heq | ⟨r2, hr2, hsome, hscore, hlt⟩
    · rw [heq] at h
      cases h
    · rw [hsome] at h
      cases h
      refine ⟨hr2, ?_, ?_⟩
      · rw [← hscore]
        exact hlt
      · intro x hx
        rw [← hscore]
        exact h2 x hx

/-- C2 amended: when no candidate survives scoring (equivalently, when no
candidate scores above 0, which covers the empty survivor list), detectCard
returns the lastDetection retained from the previous successful call
rather than reporting not-found; when a candidate is selected it is a
maximum-scoring one and is returned with smoothed corners. -/
theorem c2_detect_card_selection (sq : ℚ → ℚ) (st : DetectorState)
    (rects : List RectCand) (guide : Option GuideRegion) :
    (selectBestCandidate rects guide = none →
      (detectCardFromRects sq st rects guide).2 = st.lastDetection) ∧
    (selectBestCandidate rects guide = none ↔
      ∀ r ∈ rects, scoreOf (maxWidthOf rects) guide r ≤ 0) ∧
    (∀ r, selectBestCandidate rects guide = some r →
      r ∈ rects ∧
      (∀ x ∈ rects, scoreOf (maxWidthOf rects) guide x ≤
        scoreOf (maxWidthOf rects) guide r) ∧
      (detectCardFromRects sq st rects guide).2 =
        some { r with corners := (smoothCorners
          (updateHistory sq st r).detectionHistory r.corners) }) := by
  refine ⟨?_, selectBest_none_iff rects guide, ?_⟩
  · intro hnone
    rw [detectCardFromRects, hnone]
  · intro r hr
    obtain ⟨hmem, hpos, hmax⟩ := selectBest_some rects guide r hr
    refine ⟨hmem, hmax, ?_⟩
    rw [detectCardFromRects, hr]

/-- Witness for the amended C2: on a fresh detector and an empty candidate
list the call reports the (empty) retained lastDetection. -/
theorem c2_detect_card_selection_witness :
    selectBestCandidate ([] : List RectCand) none = none ∧
    (detectCardFromRects sqZero detectorState0 [] none).2 =
      detectorState0.lastDetection :=
  ⟨rfl, (c2_detect_card_selection sqZero detectorState0 [] none).1 rfl⟩

/-- C2 counterexample: after one successful call, a call in which no
candidate survives returns the stale previous detection instead of
reporting not-found. -/
theorem c2_counterexample :
    selectBestCandidate ([] : List RectCand) none = none ∧
    (detectCardFromRects sqZero
      ((detectCardFromRects sqZero detectorState0 [goodRect] none).1)
      [] none).2 = some goodRect := by
  have hsel : selectBestCandidate [goodRect] none = some goodRect := by
    rw [selectBestCandidate]
    rw [show (List.foldl (selectStep (maxWidthOf [goodRect]) none) (0, none)
        [goodRect]) = (selectStep (maxWidthOf [goodRect]) none (0, none)
        goodRect) from rfl]
    rw [selectStep]
    rw [if_pos (by norm_num [scoreOf, maxWidthOf, goodRect])]
  have hscore : scoreOf (maxWidthOf [goodRect]) none goodRect = 1 := by
    norm_num [scoreOf, maxWidthOf, goodRect]
  have hstep1 :
      (detectCardFromRects sqZero detectorState0 [goodRect] none).1.lastDetection
        = some goodRect := by
    rw [detectCardFromRects, hsel]
    simp only [updateHistory, detectorState0, checkConsistency]
    norm_num [smoothCorners, smoothCorner, goodRect, jsRound]
  constructor
  · rfl
  · rw [detectCardFromRects]
    rw [show selectBestCandidate ([] : List RectCand) none = none from rfl]
    exact hstep1


/-- The standard detection tail never changes the lock flag or the tracking
region. -/
theorem stdDetectCV_lock_fields (bright unif : CVDet → ℚ) (st : CVState)
    (stdRects : List CVDet) (guide : Option ROI) :
    ((stdDetectCV bright unif st stdRects guide).1).isLocked = st.isLocked ∧
    ((stdDetectCV bright unif st stdRects guide).1).trackingROI =
      st.trackingROI := by
  rw [stdDetectCV]
  rcases selectBestCandidateCV bright unif stdRects guide with _ | d
  · exact ⟨rfl, rfl⟩
  · exact ⟨rfl, rfl⟩

/-- C8: the lock state machine. A detectCard call never locks an unlocked
detector; locking happens only through an explicit lock call carrying a
detection (lock without one is the identity) and records the padded
tracking region; and a call made in the LOCKED state that finds no
rectangle inside the tracking region unlocks the detector (clearing the
region of interest and the stored template) and runs the standard
full-frame detection within that same call. -/
theorem c8_lock_state_machine :
    (∀ (bright unif : CVDet → ℚ) (st : CVState)
        (trackRects stdRects : List CVDet) (guide : Option ROI),
      st.isLocked = false →
      ((detectCardStepCV bright unif st trackRects stdRects guide).1).isLocked
        = false) ∧
    (∀ st : CVState, lockCV st none = st) ∧
    (∀ (st : CVState) (d : CVDet),
      (lockCV st (some d)).isLocked = true ∧
      (lockCV st (some d)).trackingROI = some (computeROI d.corners)) ∧
    (∀ (bright unif : CVDet → ℚ) (st : CVState) (stdRects : List CVDet)
        (guide : Option ROI),
      st.isLocked = true → st.trackingROI.isSome = true →
      detectCardStepCV bright unif st [] stdRects guide =
        stdDetectCV bright unif (unlockCV st) stdRects guide ∧
      (unlockCV st).isLocked = false ∧
      (unlockCV st).trackingROI = none ∧
      (unlockCV st).lockedTemplate = none) := by
  refine ⟨?_, ?_, ?_, ?_⟩
  · intro bright unif st trackRects stdRects guide hunlocked
    rw [detectCardStepCV, if_neg (by simp [hunlocked])]
    rw [(stdDetectCV_lock_fields bright unif st stdRects guide).1]
    exact hunlocked
  · intro st
    rfl
  · intro st d
    exact ⟨rfl, rfl⟩
  · intro bright unif st stdRects guide hlocked hroi
    refine ⟨?_, rfl, rfl, rfl⟩
    rw [detectCardStepCV, if_pos (by simp [hlocked, hroi])]
    rfl

/-- Witness for C8 at a concrete locked state with an empty tracking
result. -/
theorem c8_lock_state_machine_witness :
    lockedState0.isLocked = true ∧ lockedState0.trackingROI.isSome = true ∧
    detectCardStepCV (fun _ => 1) (fun _ => 1) lockedState0 [] [] none =
      stdDetectCV (fun _ => 1) (fun _ => 1) (unlockCV lockedState0) [] none ∧
    (unlockCV lockedState0).isLocked = false :=
  ⟨rfl, rfl,
   ((c8_lock_state_machine.2.2.2 (fun _ => 1) (fun _ => 1) lockedState0 []
      none rfl rfl).1),
   ((c8_lock_state_machine.2.2.2 (fun _ => 1) (fun _ => 1) lockedState0 []
      none rfl rfl).2.1)⟩

end SizeKit
